import Mathlib

/-!
Verification development for the `node-server` repository.

Shallow embedding of the parts of the code base that the specification's
claims are about: the router (`lib/Router.js`), the request normalizer
(`lib/Request.js`), the typed sanitizer (`lib/InputSanitizer.js`), the
data-access layer (`database/Database.js`, `database/MySQLDatabase.js`),
the listing models (`models/ProductsModel.js`, `models/OrdersModel.js`),
the error taxonomy (`exceptions/*.js`), the dispatcher's catch block
(`server.js`), the auth controller (`controllers/AuthController.js`) and
the report controller (`controllers/ReportController.js`).

JavaScript values are modelled by the inductive `JSVal`; machine details
that the claims do not touch (floating point NaN, prototype mutation,
property enumeration order beyond insertion order) are not modelled.
Recursions that JavaScript performs by regex scanning are implemented
with an explicit fuel argument (always instantiated with a sufficient
bound) so that every definition computes by kernel reduction.
-/

namespace NodeServer

/-- A fragment of the JavaScript value universe: `undefined`, `null`,
booleans, (integer) numbers, strings, arrays and plain objects.  Objects
are association lists in insertion order with distinct keys. -/
inductive JSVal where
  | undef : JSVal
  | null : JSVal
  | bool : Bool → JSVal
  | num : Int → JSVal
  | str : String → JSVal
  | arr : List JSVal → JSVal
  | obj : List (String × JSVal) → JSVal

/-- JavaScript truthiness (`!!value`) on the modelled fragment:
`undefined`, `null`, `false`, `0` and `""` are falsy, everything else
(including every array and object) is truthy. -/
def truthy : JSVal → Bool
  | .undef => false
  | .null => false
  | .bool b => b
  | .num n => n != 0
  | .str s => s != ""
  | .arr _ => true
  | .obj _ => true

/-- The ASCII single-quote character (code 39). -/
def sqQuote : Char := Char.ofNat 39

/-- The NUL character (code 0), written `\0` in the JavaScript source. -/
def nullChar : Char := Char.ofNat 0

/-- The backslash character. -/
def backslashChar : Char := Char.ofNat 92

/-- The character class recognised by JavaScript's `String.prototype.trim`
and by the regex class `\s`: ASCII whitespace plus the Unicode space
separators, line separators and the BOM. -/
def isJsSpace (c : Char) : Bool :=
  c = ' ' || c = '\t' || c = '\n' || c.val = 11 || c.val = 12 || c = '\r' ||
  c.val = 0xA0 || c.val = 0x1680 || (0x2000 ≤ c.val && c.val ≤ 0x200A) ||
  c.val = 0x2028 || c.val = 0x2029 || c.val = 0x202F || c.val = 0x205F ||
  c.val = 0x3000 || c.val = 0xFEFF

/-- `String.prototype.trim`: drop leading and trailing whitespace. -/
def jsTrim (l : List Char) : List Char :=
  ((l.dropWhile isJsSpace).reverse.dropWhile isJsSpace).reverse

mutual
/-- JavaScript's `String(value)` conversion on the modelled fragment.
Arrays stringify through `Array.prototype.join(",")`; plain objects
stringify to `"[object Object]"`. -/
def jsToString : JSVal → String
  | .undef => "undefined"
  | .null => "null"
  | .bool true => "true"
  | .bool false => "false"
  | .num n => toString n
  | .str s => s
  | .arr xs => jsArrJoin xs
  | .obj _ => "[object Object]"

/-- `Array.prototype.join(",")`: `null` and `undefined` elements
contribute the empty string. -/
def jsArrJoin : List JSVal → String
  | [] => ""
  | v :: rest =>
    (match v with
     | .undef => ""
     | .null => ""
     | w => jsToString w) ++ (if rest.isEmpty then "" else ",") ++ jsArrJoin rest
end

example : jsToString (.arr [.num 1, .null, .str "a"]) = "1,,a" := by rfl

/-! ### `InputSanitizer.sanitizeString` (src/lib/InputSanitizer.js lines 56 to 82)

The HTML-tag stripper embeds the global regex replacement
`value.replace(/<[^>]*>/g, '')`: scanning left to right, at a `<` the
regex matches up to and including the first later `>` (if one exists)
and the match is deleted; a `<` with no later `>` is kept verbatim and
scanning resumes at the next character. -/

/-- Consume `[^>]*>`: drop characters up to and including the first `>`;
`none` when the list has no `>`. -/
def dropTag : List Char → Option (List Char)
  | [] => none
  | c :: rest => if c = '>' then some rest else dropTag rest

/-- The global replacement `replace(/<[^>]*>/g, '')`, with fuel; the
fuel is instantiated with the length of the input, which suffices since
every step consumes at least one character. -/
def stripTagsF : Nat → List Char → List Char
  | _, [] => []
  | 0, l => l
  | fuel+1, c :: rest =>
    if c = '<' then
      match dropTag rest with
      | some rest2 => stripTagsF fuel rest2
      | none => c :: stripTagsF fuel rest
    else
      c :: stripTagsF fuel rest

/-- The global replacement `replace(/<[^>]*>/g, '')`. -/
def stripTags (l : List Char) : List Char := stripTagsF l.length l

/-- The global replacement `replace(/\0/g, '')`. -/
def removeNullBytes (l : List Char) : List Char :=
  l.filter (fun c => c != nullChar)

/-- The options object consumed by `sanitizeString`: `trim` defaults to
on (`options.trim !== false`), `allowHtml` defaults to off, and
`maxLength` is falsy when `0` or absent (`options.maxLength && ...`). -/
structure StrOptions where
  trim : Bool := true
  allowHtml : Bool := false
  maxLength : Nat := 0
deriving DecidableEq, Repr

/-- The maximum-length step of `sanitizeString`: truncate when
`maxLength` is truthy and exceeded. -/
def lenTrunc (m : Nat) (l : List Char) : List Char :=
  if m ≠ 0 ∧ l.length > m then l.take m else l

/-- The character pipeline of `sanitizeString` on a non-null value
already coerced to a string: trim (unless disabled), strip HTML tags
(unless allowed), remove null bytes, truncate. -/
def sanitizeStringCore (options : StrOptions) (s0 : List Char) : List Char :=
  let s1 := if options.trim then jsTrim s0 else s0
  let s2 := if options.allowHtml then s1 else stripTags s1
  let s3 := removeNullBytes s2
  lenTrunc options.maxLength s3

/-- `InputSanitizer.sanitizeString(value, options)`: `null`/`undefined`
yield `""`; otherwise coerce to string and run the pipeline. -/
def sanitizeString (value : JSVal) (options : StrOptions) : String :=
  match value with
  | .undef => ""
  | .null => ""
  | v => String.mk (sanitizeStringCore options (jsToString v).data)

/-- ASCII lowercasing, the effect of `toLowerCase()` on the strings the
claims compare against. -/
def jsLowerAscii (s : String) : String := String.mk (s.data.map Char.toLower)

/-- `InputSanitizer.sanitizeBoolean(value, options)` (lines 154 to 163):
`null`/`undefined` yield `options.default || null`; any boolean yields
`true` (the source's `if (typeof value === 'boolean') return true`);
strings yield membership of the lowercased value in
`['true', '1', 'yes']`; anything else yields its truthiness `!!value`. -/
def sanitizeBoolean (value : JSVal) (dflt : JSVal) : JSVal :=
  match value with
  | .undef => if truthy dflt then dflt else .null
  | .null => if truthy dflt then dflt else .null
  | .bool _ => .bool true
  | .str s => .bool (["true", "1", "yes"].contains (jsLowerAscii s))
  | v => .bool (truthy v)

example : sanitizeBoolean (.bool false) .undef = .bool true := by rfl
example : sanitizeBoolean (.str "YES") .undef = .bool true := by rfl
example : sanitizeBoolean (.str "no") .undef = .bool false := by rfl
example : sanitizeBoolean .null (.bool false) = .null := by rfl
example : sanitizeString (.str " a ") {} = "a" := by decide
example : sanitizeString (.str "<b>x</b>") {} = "x" := by decide
example : sanitizeString (.str "<a> h <b>") {} = " h " := by decide
example : sanitizeString .undef {} = "" := by decide

/-! ### `InputSanitizer.detectSqlInjection` (src/lib/InputSanitizer.js lines 282 to 299)

Each of the seven regex patterns is translated into a decidable scanner
over the lowercased character list (all patterns except the comment
pattern carry the `i` flag; lowercasing first is harmless for the
comment pattern, whose characters are case-stable).  `\w` and `\d` are
the ASCII classes, `\b` is a transition between a word character and a
non-word character (or the string edge).  Where a pattern contains
`X+Y*` sequences over pairwise disjoint character classes, greedy
matching with backtracking accepts exactly when maximal-munch does, so
the scanners take maximal runs. -/

/-- The regex class `\w` (and the `[\d\w]` of the tautology pattern). -/
def isWordChar (c : Char) : Bool := c.isAlpha || c.isDigit || c = '_'

/-- True when position `i` of `l` is past the end or holds a non-word
character; used for `\b` checks. -/
def notWordAt (l : List Char) (i : Nat) : Bool :=
  match l.get? i with
  | some c => !(isWordChar c)
  | none => true

/-- `\b` immediately before position `i`. -/
def boundaryBefore (l : List Char) (i : Nat) : Bool :=
  i == 0 || notWordAt l (i - 1)

/-- Does any position `i < n` satisfy `f`? -/
def existsAt (n : Nat) (f : Nat → Bool) : Bool := (List.range n).any f

/-- The keywords of pattern 1,
`/(\b(SELECT|INSERT|UPDATE|DELETE|DROP|CREATE|ALTER|EXEC|EXECUTE)\b)/i`. -/
def sqlKeywords1 : List (List Char) :=
  ["select", "insert", "update", "delete", "drop", "create", "alter",
   "exec", "execute"].map String.data

/-- Pattern 1: a bare SQL keyword delimited by word boundaries. -/
def keywordPat (lc : List Char) : Bool :=
  existsAt (lc.length + 1) fun i => sqlKeywords1.any fun kw =>
    kw.isPrefixOf (lc.drop i) && boundaryBefore lc i && notWordAt lc (i + kw.length)

/-- Pattern 2: `/(UNION\s+SELECT)/i`. -/
def unionSelectPat (lc : List Char) : Bool :=
  existsAt (lc.length + 1) fun i =>
    ("union".data).isPrefixOf (lc.drop i) &&
    (let rest := lc.drop (i + 5)
     let sp := rest.takeWhile isJsSpace
     sp.length != 0 && ("select".data).isPrefixOf (rest.drop sp.length))

/-- Is `pat` a contiguous subsequence of `l`? -/
def containsSeq (pat l : List Char) : Bool :=
  existsAt (l.length + 1) fun i => pat.isPrefixOf (l.drop i)

/-- Pattern 3: `/(-{2}|\/\*|\*\/)/`, the SQL comment markers. -/
def commentPat (lc : List Char) : Bool :=
  containsSeq "--".data lc || containsSeq "/*".data lc || containsSeq "*/".data lc

/-- The tail of pattern 4 after the keyword:
`\s+[\d\w]+\s*=\s*[\d\w]+` starting at position `j`. -/
def tautologyTail (lc : List Char) (j : Nat) : Bool :=
  let r1 := lc.drop j
  let sp1 := r1.takeWhile isJsSpace
  sp1.length != 0 &&
  (let r2 := r1.drop sp1.length
   let w1 := r2.takeWhile isWordChar
   w1.length != 0 &&
   (let r3 := r2.drop w1.length
    let sp2 := r3.takeWhile isJsSpace
    match r3.drop sp2.length with
    | c :: r5 =>
      c == '=' &&
      (let sp3 := r5.takeWhile isJsSpace
       match r5.drop sp3.length with
       | d :: _ => isWordChar d
       | [] => false)
    | [] => false))

/-- Pattern 4: `/(\bOR\b|\bAND\b)\s+[\d\w]+\s*=\s*[\d\w]+/i`, the
tautological-condition pattern (`OR 1=1`, `AND 1=1`). -/
def tautologyPat (lc : List Char) : Bool :=
  existsAt (lc.length + 1) fun i =>
    (("or".data).isPrefixOf (lc.drop i) && boundaryBefore lc i &&
       notWordAt lc (i + 2) && tautologyTail lc (i + 2)) ||
    (("and".data).isPrefixOf (lc.drop i) && boundaryBefore lc i &&
       notWordAt lc (i + 3) && tautologyTail lc (i + 3))

/-- The keywords of pattern 5, `/(;\s*(SELECT|INSERT|UPDATE|DELETE|DROP))/i`. -/
def sqlKeywords5 : List (List Char) :=
  ["select", "insert", "update", "delete", "drop"].map String.data

/-- Pattern 5: a statement separator followed by a keyword (stacked
statements); no word boundary is required after the keyword. -/
def stackedPat (lc : List Char) : Bool :=
  existsAt lc.length fun i =>
    match lc.drop i with
    | c :: r =>
      c == ';' &&
      (let sp := r.takeWhile isJsSpace
       sqlKeywords5.any fun kw => kw.isPrefixOf (r.drop sp.length))
    | [] => false

/-- Pattern 6: `/(\bxp_|\bsp_)/i`, SQL Server procedure prefixes. -/
def procPat (lc : List Char) : Bool :=
  existsAt (lc.length + 1) fun i =>
    (("xp_".data).isPrefixOf (lc.drop i) || ("sp_".data).isPrefixOf (lc.drop i)) &&
    boundaryBefore lc i

/-- Pattern 7: `/(INFORMATION_SCHEMA|SYSOBJECTS|SYSCOLUMNS)/i`. -/
def catalogPat (lc : List Char) : Bool :=
  containsSeq "information_schema".data lc ||
  containsSeq "sysobjects".data lc || containsSeq "syscolumns".data lc

/-- `InputSanitizer.detectSqlInjection(value)`: non-strings and the
empty string (`!value`) are never flagged; a string is flagged when any
of the seven patterns matches. -/
def detectSqlInjection : JSVal → Bool
  | .str s =>
    if s = "" then false
    else
      let lc := s.data.map Char.toLower
      keywordPat lc || unionSelectPat lc || commentPat lc || tautologyPat lc ||
        stackedPat lc || procPat lc || catalogPat lc
  | _ => false

/-- `"1; DROP TABLE users"`. -/
def injProbe1 : String := "1; DROP TABLE users"

/-- `"' OR 1=1"`. -/
def injProbe2 : String := String.mk (sqQuote :: " OR 1=1".data)

/-- `"O'Brien"`. -/
def injProbe3 : String := String.mk (['O', sqQuote] ++ "Brien".data)

example : detectSqlInjection (.str injProbe1) = true := by decide
example : detectSqlInjection (.str injProbe2) = true := by decide
example : detectSqlInjection (.str injProbe3) = false := by decide

/-! ### The data-access layer (src/database/Database.js lines 159 to 169,
src/database/MySQLDatabase.js lines 47 to 72) -/

/-- The message of the error thrown by `Database._sanitizeParams`. -/
def sqlInjectionError : String :=
  "Potential SQL injection detected in parameter value"

/-- `Database._sanitizeParams(params)`: `params.map` with a check that
throws on the first string parameter flagged by the heuristic
(`detectSqlInjection` already ignores non-strings, mirroring the
source's `typeof param === 'string'` guard). -/
def sanitizeParams : List JSVal → Except String (List JSVal)
  | [] => .ok []
  | p :: rest =>
    if detectSqlInjection p then .error sqlInjectionError
    else
      match sanitizeParams rest with
      | .error e => .error e
      | .ok ps => .ok (p :: ps)

/-- One statement handed to the store driver. -/
structure DbCall where
  sql : String
  params : List JSVal

/-- `MySQLDatabase.query(sql, params)`: sanitize the parameters (an
exception aborts the call), then hand the original `sql` and `params`
to the driver.  The driver is abstracted as a function argument; the
second component records the calls that reached the store. -/
def dbQuery {α : Type} (driver : String → List JSVal → α)
    (sql : String) (params : List JSVal) : Except String α × List DbCall :=
  match sanitizeParams params with
  | .error e => (.error e, [])
  | .ok _ => (.ok (driver sql params), [⟨sql, params⟩])

/-- `MySQLDatabase.execute(sql, params)` delegates to `query`. -/
def dbExecute {α : Type} (driver : String → List JSVal → α)
    (sql : String) (params : List JSVal) : Except String α × List DbCall :=
  dbQuery driver sql params

/-! ### The listing models (src/models/ProductsModel.js lines 21 to 23,
src/models/OrdersModel.js lines 21 to 23)

Both `readAll` operations interpolate the pagination values into the
SQL template literal and bind no parameters. -/

/-- `ProductsModel.readAll(offset, limit)`:
`` this.db.query(`SELECT * FROM products LIMIT ${offset}, ${limit}`, []) ``. -/
def productsReadAllCall (offset limit : Int) : DbCall :=
  ⟨"SELECT * FROM products LIMIT " ++ toString offset ++ ", " ++ toString limit, []⟩

/-- `OrdersModel.readAll(offset, limit)`:
`` this.db.query(`SELECT * FROM orders LIMIT ${offset}, ${limit}`, []) ``. -/
def ordersReadAllCall (offset limit : Int) : DbCall :=
  ⟨"SELECT * FROM orders LIMIT " ++ toString offset ++ ", " ++ toString limit, []⟩

example : (productsReadAllCall 0 10).sql = "SELECT * FROM products LIMIT 0, 10" := by decide

/-! ### The request normalizer (src/lib/Request.js) -/

/-- Property lookup on a plain object (`obj[key]`): the first binding of
the key, `none` when the object has no such own property. -/
def getProp (fields : List (String × JSVal)) (key : String) : Option JSVal :=
  (fields.find? (fun kv => kv.1 == key)).map (fun kv => kv.2)

/-- `obj.hasOwnProperty(key)`. -/
def hasProp (fields : List (String × JSVal)) (key : String) : Bool :=
  (getProp fields key).isSome

/-- The three input mappings of a `Request` instance: `this.query`,
`this.params` and `this.body`. -/
structure Sources where
  query : List (String × JSVal)
  params : List (String × JSVal)
  body : List (String × JSVal)

/-- `replace(/'/g, "''")`: double every single quote. -/
def escapeQuotes (l : List Char) : List Char :=
  (l.map fun c => if c = sqQuote then [sqQuote, sqQuote] else [c]).flatten

/-- `replace(/\\/g, '\\\\')`: double every backslash. -/
def escapeBackslashes (l : List Char) : List Char :=
  (l.map fun c => if c = backslashChar then [backslashChar, backslashChar] else [c]).flatten

/-- `replace(/\0/g, '\\0')`: rewrite every NUL byte to backslash-zero. -/
def escapeNullBytes (l : List Char) : List Char :=
  (l.map fun c => if c = nullChar then [backslashChar, '0'] else [c]).flatten

/-- The string branch of `Request.sanitize` (lines 223 to 229): double
single quotes, double backslashes, escape NUL bytes, then trim. -/
def sanitizeJsString (s : String) : String :=
  String.mk (jsTrim (escapeNullBytes (escapeBackslashes (escapeQuotes s.data))))

mutual
/-- `Request.sanitize(value)` (lines 203 to 232): `null`/`undefined`
are returned as-is, arrays and objects are sanitized recursively,
strings go through the escaping branch, and every other value is
returned unchanged. -/
def requestSanitize : JSVal → JSVal
  | .null => .null
  | .undef => .undef
  | .arr xs => .arr (requestSanitizeList xs)
  | .obj fs => .obj (requestSanitizeFields fs)
  | .str s => .str (sanitizeJsString s)
  | v => v

/-- Element-wise `Request.sanitize` over an array. -/
def requestSanitizeList : List JSVal → List JSVal
  | [] => []
  | v :: rest => requestSanitize v :: requestSanitizeList rest

/-- Value-wise `Request.sanitize` over an object's properties. -/
def requestSanitizeFields : List (String × JSVal) → List (String × JSVal)
  | [] => []
  | kv :: rest => (kv.1, requestSanitize kv.2) :: requestSanitizeFields rest
end

/-- The `switch (source)` of `Request.input`: `'query'` and `'params'`
select their mappings, `'body'` and every other value fall through to
the body. -/
def sourceSelect (s : Sources) (source : String) : List (String × JSVal) :=
  if source = "query" then s.query
  else if source = "params" then s.params
  else s.body

/-- `Request.input(key, defaultValue, source)` (lines 100 to 121): read
the key from the selected mapping; `undefined` or `null` values yield
the default, anything else is passed through `Request.sanitize`. -/
def requestInput (s : Sources) (key : String) (defaultValue : JSVal)
    (source : String) : JSVal :=
  match getProp (sourceSelect s source) key with
  | none => defaultValue
  | some .undef => defaultValue
  | some .null => defaultValue
  | some v => requestSanitize v

/-- `Request.getValue(key, defaultValue)` (lines 148 to 162): check
`query`, then `params`, then `body` with `hasOwnProperty`; delegate to
the matching `input` call; when no mapping has the key the local
`value` is never assigned and `undefined` is returned — the default is
ignored on that path. -/
def getValue (s : Sources) (key : String) (defaultValue : JSVal) : JSVal :=
  if hasProp s.query key then requestInput s key defaultValue "query"
  else if hasProp s.params key then requestInput s key defaultValue "params"
  else if hasProp s.body key then requestInput s key defaultValue "body"
  else (JSVal.undef)

/-- `Request.getSanitizedInput(key, defaultValue, type, options)`
specialized to `type = 'string'`, the only type the claims exercise:
`InputSanitizer.sanitize` dispatches `'string'` to
`InputSanitizer.sanitizeString`. -/
def getSanitizedInputString (s : Sources) (key : String) (defaultValue : JSVal)
    (options : StrOptions) : JSVal :=
  .str (sanitizeString (getValue s key defaultValue) options)

mutual
/-- Modelled from the spec: the sanitization that §4.2 claims
`input` applies — "strip HTML tags, remove null bytes, trim" —
recursively over arrays and objects; used only to compare the claimed
behaviour with `requestSanitize`, the sanitization the source applies. -/
def specDefensiveSanitize : JSVal → JSVal
  | .null => .null
  | .undef => .undef
  | .arr xs => .arr (specDefensiveSanitizeList xs)
  | .obj fs => .obj (specDefensiveSanitizeFields fs)
  | .str s => .str (String.mk (jsTrim (removeNullBytes (stripTags s.data))))
  | v => v

/-- Element-wise `specDefensiveSanitize` over an array. -/
def specDefensiveSanitizeList : List JSVal → List JSVal
  | [] => []
  | v :: rest => specDefensiveSanitize v :: specDefensiveSanitizeList rest

/-- Value-wise `specDefensiveSanitize` over an object's properties. -/
def specDefensiveSanitizeFields : List (String × JSVal) → List (String × JSVal)
  | [] => []
  | kv :: rest => (kv.1, specDefensiveSanitize kv.2) :: specDefensiveSanitizeFields rest
end

example :
    requestInput ⟨[], [], [("k", .str "<b>x")]⟩ "k" .null "body" = .str "<b>x" := by rfl
example :
    specDefensiveSanitize (.str "<b>x") = .str "x" := by rfl
example :
    getSanitizedInputString ⟨[], [], []⟩ "k" (.str "fallback") {} = .str "" := by rfl

/-! ### The router (src/lib/Router.js)

`_pathToRegex` rewrites a registered path into the anchored regex
obtained by replacing each `:name` (a colon followed by a maximal
nonempty run of `\w` characters) with the group `([^\/]+)` and keeping
every other character as a literal; `_extractParamKeys` collects the
names in order.  A compiled pattern is represented as a list of pieces:
literal characters and parameter groups.  Registered paths in this
repository contain no regex metacharacters outside the `:name`
construct, so literal characters match themselves. -/

/-- One piece of a compiled route pattern. -/
inductive RoutePiece where
  | lit : Char → RoutePiece
  | param : String → RoutePiece
deriving DecidableEq, Repr

/-- Compilation of a registered path (the combined effect of
`_pathToRegex`), with fuel (the input length suffices: every step
consumes at least one character). -/
def pathToPiecesF : Nat → List Char → List RoutePiece
  | _, [] => []
  | 0, _ => []
  | fuel+1, c :: rest =>
    if c = ':' then
      let w := rest.takeWhile isWordChar
      if w.isEmpty then .lit c :: pathToPiecesF fuel rest
      else .param (String.mk w) :: pathToPiecesF fuel (rest.drop w.length)
    else
      .lit c :: pathToPiecesF fuel rest

/-- Compilation of a registered path into pattern pieces. -/
def pathToPieces (l : List Char) : List RoutePiece := pathToPiecesF l.length l

/-- `Router._extractParamKeys(path)`: the parameter names matched by
`/:(\w+)/g` in scan order, with fuel. -/
def extractParamKeysF : Nat → List Char → List String
  | _, [] => []
  | 0, _ => []
  | fuel+1, c :: rest =>
    if c = ':' then
      let w := rest.takeWhile isWordChar
      if w.isEmpty then extractParamKeysF fuel rest
      else String.mk w :: extractParamKeysF fuel (rest.drop w.length)
    else
      extractParamKeysF fuel rest

/-- `Router._extractParamKeys(path)`. -/
def extractParamKeys (l : List Char) : List String := extractParamKeysF l.length l

/-- The parameter names of a compiled pattern, in order. -/
def pieceParamNames : List RoutePiece → List String
  | [] => []
  | .lit _ :: ps => pieceParamNames ps
  | .param n :: ps => n :: pieceParamNames ps

/-- Greedy matching of one `([^\/]+)` group: try the capture lengths
`k, k-1, ..., 1` (the regex engine's backtracking order, started at the
length of the maximal non-separator run) against the continuation
`tryRest` for the remaining pieces. -/
def greedyGo (tryRest : List Char → Option (List String))
    (xs : List Char) : Nat → Option (List String)
  | 0 => none
  | k+1 =>
    match tryRest (xs.drop (k+1)) with
    | some caps => some (String.mk (xs.take (k+1)) :: caps)
    | none => greedyGo tryRest xs k

/-- Anchored matching of compiled pieces against a path, returning the
captured group values in order; fueled by the number of pieces. -/
def matchPiecesF : Nat → List RoutePiece → List Char → Option (List String)
  | _, [], [] => some []
  | _, [], _ :: _ => none
  | 0, _ :: _, _ => none
  | fuel+1, .lit c :: ps, chars =>
    match chars with
    | [] => none
    | x :: xs => if x = c then matchPiecesF fuel ps xs else none
  | fuel+1, .param _ :: ps, xs =>
    greedyGo (matchPiecesF fuel ps) xs ((xs.takeWhile (fun c => c != '/')).length)

/-- Anchored matching of a compiled pattern against a path. -/
def matchPieces (ps : List RoutePiece) (chars : List Char) : Option (List String) :=
  matchPiecesF ps.length ps chars

/-- One registered route: the raw path, its compiled pattern, the
extracted parameter keys, and the handler identity. -/
structure Route where
  path : String
  pieces : List RoutePiece
  keys : List String
  controller : String
  action : String
deriving DecidableEq, Repr

/-- `Router._addRoute`: compile the path and extract its keys. -/
def mkRoute (path controller action : String) : Route :=
  ⟨path, pathToPieces path.data, extractParamKeys path.data, controller, action⟩

/-- The result of `Router.match`: handler identity plus the parameter
mapping, built positionally (`params[route.keys[i]] = match[i + 1]`). -/
structure RouteMatch where
  controller : String
  action : String
  params : List (String × String)
deriving DecidableEq, Repr

/-- The `for (const route of routes)` loop of `Router.match`: the first
route whose compiled pattern accepts the path wins; `null` otherwise. -/
def routerMatchList : List Route → String → Option RouteMatch
  | [], _ => none
  | r :: rest, pathname =>
    match matchPieces r.pieces pathname.data with
    | some caps => some ⟨r.controller, r.action, r.keys.zip caps⟩
    | none => routerMatchList rest pathname

/-- The `this.routes` table: one list per supported HTTP method, in
registration order. -/
structure RouterState where
  get : List Route
  post : List Route
  put : List Route
  delete : List Route
  patch : List Route

/-- `this.routes[method] || []`: an unknown method yields no routes. -/
def routesFor (r : RouterState) (method : String) : List Route :=
  if method = "GET" then r.get
  else if method = "POST" then r.post
  else if method = "PUT" then r.put
  else if method = "DELETE" then r.delete
  else if method = "PATCH" then r.patch
  else []

/-- `Router.match(method, pathname)` (lines 435 to 457). -/
def routerMatch (r : RouterState) (method pathname : String) : Option RouteMatch :=
  routerMatchList (routesFor r method) pathname

example :
    routerMatch ⟨[mkRoute "/user/:userId" "UserController" "read"], [], [], [], []⟩
      "GET" "/user/42"
    = some ⟨"UserController", "read", [("userId", "42")]⟩ := by rfl

example :
    routerMatch ⟨[mkRoute "/products/categories" "ProductsController" "readCategories",
                  mkRoute "/products/:id" "ProductsController" "read"], [], [], [], []⟩
      "GET" "/products/categories"
    = some ⟨"ProductsController", "readCategories", []⟩ := by rfl

example :
    routerMatch ⟨[], [], [], [], []⟩ "POST" "/anything" = none := by rfl

/-! ### The error taxonomy and the dispatcher's catch block
(src/exceptions/CustomExceptions.js, src/exceptions/ApiException.js,
`Server.handleRequest` lines 267 to 286 of server.js) -/

/-- The classified exception kinds of `CustomExceptions.js`. -/
inductive ApiKind where
  | authentication
  | methodNotAllowed
  | methodNotFound
  | missingParameters
  | notFound
  | validation
deriving DecidableEq, Repr

/-- The HTTP status code each classified kind passes to the
`ApiException` constructor. -/
def apiKindCode : ApiKind → Nat
  | .authentication => 401
  | .methodNotAllowed => 405
  | .methodNotFound => 404
  | .missingParameters => 400
  | .notFound => 404
  | .validation => 422

/-- `this.constructor.name` of each classified kind. -/
def apiKindName : ApiKind → String
  | .authentication => "AuthenticationException"
  | .methodNotAllowed => "MethodNotAllowedException"
  | .methodNotFound => "MethodNotFoundException"
  | .missingParameters => "MissingParametersException"
  | .notFound => "NotFoundException"
  | .validation => "ValidationException"

/-- An error caught by the dispatcher: an `ApiException` (carrying its
name, code and message), or any other thrown error. -/
inductive CaughtError where
  | api : ApiKind → String → CaughtError
  | other : String → CaughtError

/-- The JSON envelope the catch block serializes.  `message` is `none`
when the source supplies `undefined`, which `JSON.stringify` omits. -/
structure ErrorEnvelope where
  error : String
  status : Nat
  message : Option String
deriving DecidableEq, Repr

/-- The catch block of `Server.handleRequest`: an `ApiException` yields
`status(error.code)` and the envelope
`{error: error.name, status: error.code || 500, message: dev ? error.message : undefined}`;
any other error yields status 500 and the generic envelope. -/
def handleRequestCatch (isDev : Bool) : CaughtError → Nat × ErrorEnvelope
  | .api k msg =>
    (apiKindCode k,
     ⟨apiKindName k,
      if apiKindCode k = 0 then 500 else apiKindCode k,
      if isDev then some msg else none⟩)
  | .other msg =>
    (500, ⟨"Internal Server Error", 500, if isDev then some msg else none⟩)

/-! ### `AuthController.createSession` and `_getSessionExpiration`
(src/controllers/AuthController.js lines 61 to 76 and 134 to 136)

The constructor sets `this.sessionTimeout = 1000 * 60 * 60 * 24 * 14`.
`_getSessionExpiration` evaluates `new Date(Date.now + this.sessionTimout)`:
`Date.now` is a function reference that is never invoked, and
`sessionTimout` (misspelled) is an absent property, i.e. `undefined`.
JavaScript `+` therefore string-concatenates the function's source text
with `"undefined"`, and the `Date` constructor receives a fixed string
that does not depend on the clock. -/

/-- `this.sessionTimeout`, in milliseconds (14 days). -/
def sessionTimeoutMs : Int := 1000 * 60 * 60 * 24 * 14

/-- The primitive (string) value of the uninvoked `Date.now` function
reference, as produced by `Function.prototype.toString` in V8. -/
def dateNowFnString : String := "function now() \x7b [native code] \x7d"

/-- The argument `Date.now + this.sessionTimout` evaluates to: the
function's string concatenated with `"undefined"`. -/
def sessionExpirationArg : String := dateNowFnString ++ "undefined"

/-- The cookie-issuing tail of `createSession` (lines 67 to 75): on a
truthy persistence result the session cookie is set with
`maxAge = this.sessionTimeout` and the call succeeds; otherwise an
`AuthenticationException` is raised and no cookie is set.  The result
pairs the outcome with the `maxAge` of the cookie that was set, if
any. -/
def createSessionOutcome (persisted : Bool) :
    Except (ApiKind × String) Unit × Option Int :=
  if persisted then (.ok (), some sessionTimeoutMs)
  else (.error (.authentication, "Unable to create user session."), none)

/-! ### `ReportController.index` (src/controllers/ReportController.js lines 28 to 36)

`index` reads the `reportId` path parameter and evaluates
`typeof this[reportId] === 'function'`.  The function-valued members
reachable on a `ReportController` instance are its own methods, the
methods inherited from `AuthController` (`BaseController` declares only
a constructor), and the `Object.prototype` methods; the data properties
set by the constructors (`db`, `request`, `response`, `userId`, `token`,
`cookieName`, `sessionTimeout`, `authModel`, `model`) are not
functions. -/

/-- The names `n` on a `ReportController` instance with
`typeof this[n] === 'function'`. -/
def reportFunctionMembers : List String :=
  ["index", "orderStats", "topProducts", "recentOrders",
   "authenticate", "createSession", "deleteSession", "isAuthenticated",
   "deleteCookie", "_setUserAndToken", "_getToken", "_getSessionExpiration",
   "_generateToken", "constructor",
   "hasOwnProperty", "isPrototypeOf", "propertyIsEnumerable",
   "toLocaleString", "toString", "valueOf",
   "__defineGetter__", "__defineSetter__", "__lookupGetter__", "__lookupSetter__"]

/-- `typeof this[reportId] === 'function'` on a `ReportController`. -/
def reportMemberIsFunction (reportId : String) : Bool :=
  reportFunctionMembers.contains reportId

/-- The two outcomes of `ReportController.index`. -/
inductive ReportIndexOutcome where
  | invoke : String → ReportIndexOutcome
  | notFound : ReportIndexOutcome
deriving DecidableEq, Repr

/-- `ReportController.index()`: invoke `this[reportId]()` when that
member is a function, otherwise throw `NotFoundException`. -/
def reportIndex (reportId : String) : ReportIndexOutcome :=
  if reportMemberIsFunction reportId then .invoke reportId else .notFound

example : reportIndex "authenticate" = .invoke "authenticate" := by rfl
example : reportIndex "orderStats" = .invoke "orderStats" := by rfl
example : reportIndex "noSuchReport" = .notFound := by rfl

/-! ## Supporting lemmas -/

theorem dropTag_length (l : List Char) : ∀ r, dropTag l = some r → r.length < l.length := by
  induction l with
  | nil => intro r h; simp [dropTag] at h
  | cons c rest ih =>
    intro r h
    by_cases hc : c = '>'
    · simp [dropTag, hc] at h
      simp [← h, List.length_cons]
    · simp [dropTag, hc] at h
      exact Nat.lt_trans (ih r h) (Nat.lt_succ_self _)

theorem dropTag_none (l : List Char) : dropTag l = none ↔ '>' ∉ l := by
  induction l with
  | nil => simp [dropTag]
  | cons c rest ih =>
    by_cases hc : c = '>'
    · simp [dropTag, hc]
    · simp [dropTag, hc, ih, Ne.symm hc]

theorem dropTag_mem (l : List Char) : ∀ r, dropTag l = some r → ∀ x ∈ r, x ∈ l := by
  induction l with
  | nil => intro r h; simp [dropTag] at h
  | cons c rest ih =>
    intro r h x hx
    by_cases hc : c = '>'
    · simp [dropTag, hc] at h
      exact List.mem_cons_of_mem c (h ▸ hx)
    · simp [dropTag, hc] at h
      exact List.mem_cons_of_mem c (ih r h x hx)

/-- No `<` in the list is followed (anywhere later) by a `>`; exactly
the lists on which the tag-stripping regex finds no match. -/
def noTag : List Char → Prop
  | [] => True
  | c :: rest => (c = '<' → '>' ∉ rest) ∧ noTag rest

theorem noTag_sublist {l l2 : List Char} (h : List.Sublist l2 l) (hn : noTag l) : noTag l2 := by
  induction h with
  | slnil => trivial
  | cons a _ ih => exact ih hn.2
  | cons₂ a hsub ih =>
    exact ⟨fun ha hmem => hn.1 ha (hsub.mem hmem), ih hn.2⟩

theorem stripTagsF_mem (fuel : Nat) : ∀ l : List Char, ∀ x ∈ stripTagsF fuel l, x ∈ l := by
  induction fuel with
  | zero =>
    intro l x hx
    cases l with
    | nil => simp [stripTagsF] at hx
    | cons c rest => simpa [stripTagsF] using hx
  | succ fuel ih =>
    intro l x hx
    cases l with
    | nil => simp [stripTagsF] at hx
    | cons c rest =>
      by_cases hc : c = '<'
      · cases hdt : dropTag rest with
        | some rest2 =>
          rw [stripTagsF, if_pos hc, hdt] at hx
          exact List.mem_cons_of_mem c (dropTag_mem rest rest2 hdt x (ih rest2 x hx))
        | none =>
          rw [stripTagsF, if_pos hc, hdt] at hx
          rcases List.mem_cons.mp hx with h1 | h2
          · exact h1 ▸ List.mem_cons_self c rest
          · exact List.mem_cons_of_mem c (ih rest x h2)
      · rw [stripTagsF, if_neg hc] at hx
        rcases List.mem_cons.mp hx with h1 | h2
        · exact h1 ▸ List.mem_cons_self c rest
        · exact List.mem_cons_of_mem c (ih rest x h2)

theorem noTag_stripTagsF (fuel : Nat) :
    ∀ l : List Char, l.length ≤ fuel → noTag (stripTagsF fuel l) := by
  induction fuel with
  | zero =>
    intro l hl
    have : l = [] := List.length_eq_zero.mp (Nat.le_zero.mp hl)
    subst this
    simp [stripTagsF, noTag]
  | succ fuel ih =>
    intro l hl
    cases l with
    | nil => simp [stripTagsF, noTag]
    | cons c rest =>
      have hrest : rest.length ≤ fuel := by
        simpa [List.length_cons] using Nat.le_of_succ_le_succ hl
      by_cases hc : c = '<'
      · cases hdt : dropTag rest with
        | some rest2 =>
          rw [stripTagsF, if_pos hc, hdt]
          have hlt := dropTag_length rest rest2 hdt
          exact ih rest2 (Nat.le_of_lt (Nat.lt_of_lt_of_le hlt hrest))
        | none =>
          rw [stripTagsF, if_pos hc, hdt]
          refine ⟨fun _ hmem => ?_, ih rest hrest⟩
          exact absurd (stripTagsF_mem fuel rest '>' hmem) ((dropTag_none rest).mp hdt)
      · rw [stripTagsF, if_neg hc]
        exact ⟨fun hcc => absurd hcc hc, ih rest hrest⟩

theorem stripTagsF_of_noTag (fuel : Nat) :
    ∀ l : List Char, noTag l → stripTagsF fuel l = l := by
  induction fuel with
  | zero =>
    intro l _
    cases l with
    | nil => rfl
    | cons c rest => rfl
  | succ fuel ih =>
    intro l hn
    cases l with
    | nil => rfl
    | cons c rest =>
      by_cases hc : c = '<'
      · have hno : dropTag rest = none := (dropTag_none rest).mpr (hn.1 hc)
        rw [stripTagsF, if_pos hc, hno, ih rest hn.2]
      · rw [stripTagsF, if_neg hc, ih rest hn.2]

theorem noTag_stripTags (l : List Char) : noTag (stripTags l) :=
  noTag_stripTagsF l.length l le_rfl

theorem stripTags_of_noTag (l : List Char) (h : noTag l) : stripTags l = l :=
  stripTagsF_of_noTag l.length l h

theorem removeNullBytes_not_mem (l : List Char) : nullChar ∉ removeNullBytes l := by
  simp [removeNullBytes, List.mem_filter]

theorem removeNullBytes_of_not_mem (l : List Char) (h : nullChar ∉ l) :
    removeNullBytes l = l := by
  refine List.filter_eq_self.mpr fun x hx => ?_
  simp only [bne_iff_ne, ne_eq]
  exact fun he => h (he ▸ hx)

theorem lenTrunc_mem (m : Nat) (l : List Char) : ∀ x ∈ lenTrunc m l, x ∈ l := by
  intro x hx
  unfold lenTrunc at hx
  split at hx
  · exact (List.take_sublist m l).mem hx
  · exact hx

theorem lenTrunc_sublist (m : Nat) (l : List Char) : List.Sublist (lenTrunc m l) l := by
  unfold lenTrunc
  split
  · exact List.take_sublist m l
  · exact List.Sublist.refl l

theorem lenTrunc_idem (m : Nat) (l : List Char) : lenTrunc m (lenTrunc m l) = lenTrunc m l := by
  unfold lenTrunc
  by_cases hm : m = 0
  · simp [hm]
  · by_cases hl : l.length > m
    · have hlen : (l.take m).length = m := by
        simp [List.length_take]
        omega
      simp [hm, hl, hlen]
    · simp [hm, hl]

theorem sanitizeStringCore_null_not_mem (o : StrOptions) (l : List Char) :
    nullChar ∉ sanitizeStringCore o l := by
  intro hx
  exact removeNullBytes_not_mem _ (lenTrunc_mem _ _ nullChar hx)

theorem sanitizeStringCore_noTag (o : StrOptions) (l : List Char)
    (ha : o.allowHtml = false) : noTag (sanitizeStringCore o l) := by
  unfold sanitizeStringCore
  rw [ha]
  simp only [Bool.false_eq_true, if_false]
  exact noTag_sublist (lenTrunc_sublist _ _)
    (noTag_sublist (List.filter_sublist _) (noTag_stripTags _))

theorem sanitizeStringCore_idem (o : StrOptions) (h : o.trim = false) (l : List Char) :
    sanitizeStringCore o (sanitizeStringCore o l) = sanitizeStringCore o l := by
  have hnull : removeNullBytes (sanitizeStringCore o l) = sanitizeStringCore o l :=
    removeNullBytes_of_not_mem _ (sanitizeStringCore_null_not_mem o l)
  have htrunc : lenTrunc o.maxLength (sanitizeStringCore o l) = sanitizeStringCore o l := by
    unfold sanitizeStringCore
    exact lenTrunc_idem o.maxLength _
  by_cases ha : o.allowHtml
  · conv_lhs => rw [sanitizeStringCore]
    simp only [h, Bool.false_eq_true, if_false, ha, if_true, hnull]
    exact htrunc
  · have hstrip : stripTags (sanitizeStringCore o l) = sanitizeStringCore o l :=
      stripTags_of_noTag _ (sanitizeStringCore_noTag o l (Bool.not_eq_true o.allowHtml ▸ ha))
    conv_lhs => rw [sanitizeStringCore]
    simp only [h, Bool.false_eq_true, if_false, ha, hstrip, hnull]
    exact htrunc

theorem extractParamKeysF_eq_names (fuel : Nat) :
    ∀ l : List Char, extractParamKeysF fuel l = pieceParamNames (pathToPiecesF fuel l) := by
  induction fuel with
  | zero =>
    intro l
    cases l with
    | nil => rfl
    | cons c rest => rfl
  | succ fuel ih =>
    intro l
    cases l with
    | nil => rfl
    | cons c rest =>
      by_cases hc : c = ':'
      · by_cases hw : (rest.takeWhile isWordChar).isEmpty
        · simp [extractParamKeysF, pathToPiecesF, hc, hw, pieceParamNames, ih]
        · simp [extractParamKeysF, pathToPiecesF, hc, hw, pieceParamNames, ih]
      · simp [extractParamKeysF, pathToPiecesF, hc, pieceParamNames, ih]

theorem routerMatchList_eq_none (routes : List Route) (pathname : String)
    (h : routerMatchList routes pathname = none) :
    ∀ r ∈ routes, matchPieces r.pieces pathname.data = none := by
  induction routes with
  | nil => intro r hr; simp at hr
  | cons q rest ih =>
    intro r hr
    cases hm : matchPieces q.pieces pathname.data with
    | some caps => simp [routerMatchList, hm] at h
    | none =>
      simp only [routerMatchList, hm] at h
      rcases List.mem_cons.mp hr with h1 | h2
      · exact h1 ▸ hm
      · exact ih h r h2

theorem routerMatchList_eq_some (routes : List Route) (pathname : String) :
    ∀ m, routerMatchList routes pathname = some m →
    ∃ i, ∃ hi : i < routes.length, ∃ caps,
      matchPieces (routes.get ⟨i, hi⟩).pieces pathname.data = some caps ∧
      (∀ j, ∀ hj : j < routes.length, j < i →
         matchPieces (routes.get ⟨j, hj⟩).pieces pathname.data = none) ∧
      m.controller = (routes.get ⟨i, hi⟩).controller ∧
      m.action = (routes.get ⟨i, hi⟩).action ∧
      m.params = (routes.get ⟨i, hi⟩).keys.zip caps := by
  induction routes with
  | nil => intro m h; simp [routerMatchList] at h
  | cons q rest ih =>
    intro m h
    cases hm : matchPieces q.pieces pathname.data with
    | some caps =>
      simp only [routerMatchList, hm, Option.some.injEq] at h
      subst h
      refine ⟨0, Nat.succ_pos _, caps, hm, ?_, rfl, rfl, rfl⟩
      intro j hj hji; exact absurd hji (Nat.not_lt_zero j)
    | none =>
      simp only [routerMatchList, hm] at h
      obtain ⟨i, hi, caps, hmi, hprev, hc1, hc2, hc3⟩ := ih m h
      refine ⟨i + 1, Nat.succ_lt_succ hi, caps, ?_, ?_, ?_, ?_, ?_⟩
      · simpa using hmi
      · intro j hj hji
        cases j with
        | zero => simpa using hm
        | succ j2 =>
          have := hprev j2 (Nat.lt_of_succ_lt_succ hj) (Nat.lt_of_succ_lt_succ hji)
          simpa using this
      · simpa using hc1
      · simpa using hc2
      · simpa using hc3

theorem sanitizeParams_flagged (params : List JSVal)
    (h : ∃ p ∈ params, detectSqlInjection p = true) :
    sanitizeParams params = .error sqlInjectionError := by
  induction params with
  | nil => simp at h
  | cons q rest ih =>
    rcases h with ⟨p, hp, hflag⟩
    by_cases hq : detectSqlInjection q = true
    · simp [sanitizeParams, hq]
    · have hmem : p ∈ rest := by
        rcases List.mem_cons.mp hp with h1 | h2
        · subst h1; exact absurd hflag hq
        · exact h2
      have herr := ih ⟨p, hmem, hflag⟩
      simp [sanitizeParams, hq, herr]

/-! ## Claims -/

/-- C1: for every method and path, `Router.match` returns the
first-registered route for that method whose compiled pattern accepts
the path — every earlier-registered route rejects it — with the
captured segment values zipped positionally onto the keys extracted
from the registered pattern (which are exactly the parameter names in
the order they appear in it); when no pattern for the method accepts
the path, including when the method has no routes at all, `match`
returns `none`. -/
theorem router_match_first_registered (state : RouterState)
    (method pathname path ctrl act : String) :
    (routerMatch state method pathname = none →
       ∀ r ∈ routesFor state method, matchPieces r.pieces pathname.data = none) ∧
    (∀ m, routerMatch state method pathname = some m →
       ∃ i, ∃ hi : i < (routesFor state method).length, ∃ caps,
         matchPieces ((routesFor state method).get ⟨i, hi⟩).pieces pathname.data
           = some caps ∧
         (∀ j, ∀ hj : j < (routesFor state method).length, j < i →
            matchPieces ((routesFor state method).get ⟨j, hj⟩).pieces pathname.data
              = none) ∧
         m.controller = ((routesFor state method).get ⟨i, hi⟩).controller ∧
         m.action = ((routesFor state method).get ⟨i, hi⟩).action ∧
         m.params = ((routesFor state method).get ⟨i, hi⟩).keys.zip caps) ∧
    (mkRoute path ctrl act).keys = pieceParamNames (mkRoute path ctrl act).pieces := by
  refine ⟨fun h => routerMatchList_eq_none _ _ h,
          fun m h => routerMatchList_eq_some _ _ m h, ?_⟩
  simp [mkRoute, pathToPieces, extractParamKeys, extractParamKeysF_eq_names]

theorem router_match_first_registered_witness :
    (mkRoute "/api/v1/user/:userId" "UserController" "read").keys
      = pieceParamNames (mkRoute "/api/v1/user/:userId" "UserController" "read").pieces ∧
    routerMatch
        ⟨[mkRoute "/products/categories" "ProductsController" "readCategories",
          mkRoute "/products/:id" "ProductsController" "read"], [], [], [], []⟩
        "GET" "/products/categories"
      = some ⟨"ProductsController", "readCategories", []⟩ ∧
    routerMatch
        ⟨[mkRoute "/products/categories" "ProductsController" "readCategories",
          mkRoute "/products/:id" "ProductsController" "read"], [], [], [], []⟩
        "GET" "/products/7"
      = some ⟨"ProductsController", "read", [("id", "7")]⟩ ∧
    routerMatch ⟨[], [], [], [], []⟩ "POST" "/products/7" = none :=
  ⟨(router_match_first_registered ⟨[], [], [], [], []⟩ "GET" "/x"
      "/api/v1/user/:userId" "UserController" "read").2.2,
   by decide, by decide, by decide⟩

/-- C2: every string parameter of a `query`/`execute` call is checked
against the SQL-injection heuristic before binding; a flagged parameter
makes the call fail with the security error and no statement reaches
the store.  Moreover the heuristic flags `"1; DROP TABLE users"` and
`"' OR 1=1"` and does not flag `"O'Brien"`. -/
theorem db_params_injection_gate :
    (∀ (α : Type) (driver : String → List JSVal → α) (sql : String)
        (params : List JSVal) (p : JSVal), p ∈ params →
        detectSqlInjection p = true →
        (dbQuery driver sql params).2 = [] ∧
        (dbQuery driver sql params).1 = .error sqlInjectionError ∧
        (dbExecute driver sql params).2 = [] ∧
        (dbExecute driver sql params).1 = .error sqlInjectionError) ∧
    detectSqlInjection (.str injProbe1) = true ∧
    detectSqlInjection (.str injProbe2) = true ∧
    detectSqlInjection (.str injProbe3) = false := by
  refine ⟨?_, by decide, by decide, by decide⟩
  intro α driver sql params p hp hflag
  have herr := sanitizeParams_flagged params ⟨p, hp, hflag⟩
  simp [dbQuery, dbExecute, herr]

theorem db_params_injection_gate_witness :
    JSVal.str injProbe2 ∈ [JSVal.str injProbe2] ∧
    detectSqlInjection (.str injProbe2) = true ∧
    (dbQuery (fun (s : String) (ps : List JSVal) => (s, ps)) "SELECT 1"
        [.str injProbe2]).2 = [] ∧
    (dbQuery (fun (s : String) (ps : List JSVal) => (s, ps)) "SELECT 1"
        [.str injProbe2]).1 = .error sqlInjectionError := by
  have h := db_params_injection_gate.1 (String × List JSVal)
    (fun s ps => (s, ps)) "SELECT 1" [.str injProbe2] (.str injProbe2)
    (List.mem_singleton.mpr rfl) (by decide)
  exact ⟨List.mem_singleton.mpr rfl, by decide, h.1, h.2.1⟩

/-- C3: contrary to the claim, the SQL text handed to the store driver
by the listing operations is not one fixed string — `readAll`
interpolates the caller-supplied pagination values into the template
literal and binds no parameters.  Evaluated at the failing inputs
`(0, 10)` and `(5, 10)`. -/
theorem readAll_pagination_interpolated :
    (productsReadAllCall 0 10).sql = "SELECT * FROM products LIMIT 0, 10" ∧
    (ordersReadAllCall 0 10).sql = "SELECT * FROM orders LIMIT 0, 10" ∧
    (productsReadAllCall 0 10).sql ≠ (productsReadAllCall 5 10).sql ∧
    (ordersReadAllCall 0 10).sql ≠ (ordersReadAllCall 5 10).sql ∧
    (productsReadAllCall 0 10).params = [] ∧
    (ordersReadAllCall 0 10).params = [] :=
  ⟨by decide, by decide, by decide, by decide, rfl, rfl⟩

/-- C4: contrary to the claim, the expiration computed by
`_getSessionExpiration` is not 14 days after the creation time: the
`Date` constructor receives a fixed string (`Date.now` is never
invoked and `sessionTimout` is an absent property), so whatever the
runtime's date parser does with it, the result cannot track the
creation time.  The persistence-failure branch of `createSession` does
raise the authentication error and sets no cookie, and the success
branch uses the 14-day `maxAge`. -/
theorem session_expiration_divergence :
    (∀ dateParse : String → Option Int, ∃ now : Int,
        dateParse sessionExpirationArg ≠ some (now + sessionTimeoutMs)) ∧
    sessionExpirationArg =
      "function now() \x7b [native code] \x7dundefined" ∧
    (createSessionOutcome false).2 = none ∧
    (createSessionOutcome false).1 =
      .error (.authentication, "Unable to create user session.") ∧
    (createSessionOutcome true).2 = some sessionTimeoutMs := by
  refine ⟨?_, by decide, rfl, rfl, rfl⟩
  intro dateParse
  by_cases h : dateParse sessionExpirationArg = some (0 + sessionTimeoutMs)
  · refine ⟨1, ?_⟩
    rw [h]
    intro he
    have := Option.some.inj he
    omega
  · exact ⟨0, h⟩

/-- C5: the dispatcher's catch block maps a classified `ApiException`
to its own status code — one of 401, 400, 422, 404, 405 — in both the
HTTP status and the envelope's `status` field, maps any other error to
500, and includes the internal message in the envelope exactly in
development mode. -/
theorem dispatcher_error_envelope (isDev : Bool) (k : ApiKind) (msg : String) :
    (handleRequestCatch isDev (.api k msg)).1 = apiKindCode k ∧
    (handleRequestCatch isDev (.api k msg)).2.status = apiKindCode k ∧
    (handleRequestCatch isDev (.api k msg)).2.error = apiKindName k ∧
    apiKindCode k ∈ [400, 401, 404, 405, 422] ∧
    (∀ m, (handleRequestCatch isDev (.other m)).1 = 500 ∧
          (handleRequestCatch isDev (.other m)).2.status = 500) ∧
    ((handleRequestCatch isDev (.api k msg)).2.message = some msg ↔ isDev = true) ∧
    (∀ m, (handleRequestCatch isDev (.other m)).2.message = some m ↔ isDev = true) := by
  cases k <;> cases isDev <;>
    simp [handleRequestCatch, apiKindCode, apiKindName]

/-- C9: `ReportController.index` invokes the controller member named by
the `reportId` path parameter whenever that member is function-valued —
including members that are not report sub-operations, such as
`authenticate`, `deleteSession` and inherited helpers — and throws
`NotFoundException` (code 404) exactly when no function-valued member
of that name exists. -/
theorem report_index_function_member_dispatch (reportId : String) :
    (reportMemberIsFunction reportId = true →
       reportIndex reportId = .invoke reportId) ∧
    (reportMemberIsFunction reportId = false →
       reportIndex reportId = .notFound) ∧
    reportMemberIsFunction "authenticate" = true ∧
    reportMemberIsFunction "deleteSession" = true ∧
    reportMemberIsFunction "_generateToken" = true ∧
    reportMemberIsFunction "orderStats" = true ∧
    reportMemberIsFunction "quarterlyTotals" = false ∧
    apiKindCode .notFound = 404 := by
  refine ⟨?_, ?_, by decide, by decide, by decide, by decide, by decide, rfl⟩
  · intro h; simp [reportIndex, h]
  · intro h; simp [reportIndex, h]

theorem report_index_function_member_dispatch_witness :
    reportIndex "authenticate" = .invoke "authenticate" ∧
    reportIndex "quarterlyTotals" = .notFound :=
  ⟨(report_index_function_member_dispatch "authenticate").1 (by decide),
   (report_index_function_member_dispatch "quarterlyTotals").2.1 (by decide)⟩

/-- C10: when a key is absent from all of `query`, `params` and `body`,
`getValue` returns `undefined` (ignoring the caller's default), and
`getSanitizedInput` with type `string` therefore returns the empty
string — the result of string-sanitizing an absent value — for every
caller-supplied default and options. -/
theorem getSanitizedInput_absent_key_empty_string
    (s : Sources) (key : String) (d : JSVal) (opts : StrOptions)
    (hq : hasProp s.query key = false)
    (hp : hasProp s.params key = false)
    (hb : hasProp s.body key = false) :
    getValue s key d = .undef ∧
    getSanitizedInputString s key d opts = .str "" := by
  have hv : getValue s key d = .undef := by
    simp [getValue, hq, hp, hb]
  exact ⟨hv, by simp [getSanitizedInputString, hv, sanitizeString]⟩

/-- C8, counterexample: with the default options, `sanitizeString` is
not idempotent — stripping the tags of `"<a> h <b>"` exposes the
whitespace `" h "` that the first (earlier) trim never saw, and a
trailing null byte shields whitespace the same way — so a second
application trims further. -/
theorem sanitizeString_not_idempotent_default :
    sanitizeString (.str "<a> h <b>") {} = " h " ∧
    sanitizeString (.str " h ") {} = "h" ∧
    sanitizeString (.str (sanitizeString (.str "<a> h <b>") {})) {}
      ≠ sanitizeString (.str "<a> h <b>") {} ∧
    sanitizeString (.str (sanitizeString (.str "a \x00") {})) {}
      ≠ sanitizeString (.str "a \x00") {} :=
  ⟨by decide, by decide, by decide, by decide⟩

/-- C8, amended: `sanitizeString` is idempotent on every string input
for every options value with trimming disabled (`trim: false`); with
trimming enabled idempotence can fail, because tag stripping and null
byte removal run after the trim and can expose new edge whitespace. -/
theorem sanitizeString_idempotent_without_trim (s : String) (o : StrOptions)
    (h : o.trim = false) :
    sanitizeString (.str (sanitizeString (.str s) o)) o = sanitizeString (.str s) o :=
  congrArg String.mk (sanitizeStringCore_idem o h s.data)

theorem sanitizeString_idempotent_without_trim_witness :
    ({ trim := false : StrOptions }).trim = false ∧
    sanitizeString (.str (sanitizeString (.str " <a>b ") { trim := false })) { trim := false }
      = sanitizeString (.str " <a>b ") { trim := false } :=
  ⟨rfl, sanitizeString_idempotent_without_trim " <a>b " { trim := false } rfl⟩

/-- C7, counterexample: `sanitizeBoolean` returns `true` for boolean
`false` (the claim requires `false`), returns `true` for the number `1`
(the claim allows `true` only for boolean `true` and the three
strings), and returns `null` — not the caller-supplied default — for a
`null` input with the falsy default `false`. -/
theorem sanitizeBoolean_counterexample :
    sanitizeBoolean (.bool false) .undef = .bool true ∧
    JSVal.bool true ≠ JSVal.bool false ∧
    sanitizeBoolean (.num 1) .undef = .bool true ∧
    sanitizeBoolean .null (.bool false) = .null ∧
    JSVal.null ≠ JSVal.bool false :=
  ⟨rfl, by simp, rfl, rfl, by simp⟩

/-- C7, amended: `sanitizeBoolean` returns `true` for every boolean
input (including `false`); for strings it returns exactly the
case-insensitive membership in `{"true", "1", "yes"}`; any other
non-null value yields its JavaScript truthiness; for `null`/`undefined`
it returns the caller's default when that default is truthy, and `null`
otherwise. -/
theorem sanitizeBoolean_behaviour (d : JSVal) :
    (∀ b : Bool, sanitizeBoolean (.bool b) d = .bool true) ∧
    (∀ s : String, sanitizeBoolean (.str s) d
        = .bool (decide (jsLowerAscii s ∈ ["true", "1", "yes"]))) ∧
    (∀ n : Int, sanitizeBoolean (.num n) d = .bool (truthy (.num n))) ∧
    (∀ xs, sanitizeBoolean (.arr xs) d = .bool (truthy (.arr xs))) ∧
    (∀ fs, sanitizeBoolean (.obj fs) d = .bool (truthy (.obj fs))) ∧
    (truthy d = true → sanitizeBoolean .null d = d ∧ sanitizeBoolean .undef d = d) ∧
    (truthy d = false → sanitizeBoolean .null d = .null ∧ sanitizeBoolean .undef d = .null) := by
  refine ⟨fun b => rfl, ?_, fun n => rfl, fun xs => rfl, fun fs => rfl, ?_, ?_⟩
  · intro s
    simp [sanitizeBoolean]
  · intro h
    constructor <;> simp [sanitizeBoolean, h]
  · intro h
    constructor <;> simp [sanitizeBoolean, h]

theorem sanitizeBoolean_behaviour_witness :
    truthy (.str "fallback") = true ∧
    sanitizeBoolean .null (.str "fallback") = .str "fallback" ∧
    sanitizeBoolean (.bool false) (.str "fallback") = .bool true :=
  ⟨by decide,
   ((sanitizeBoolean_behaviour (.str "fallback")).2.2.2.2.2.1 (by decide)).1,
   (sanitizeBoolean_behaviour (.str "fallback")).1 false⟩

/-- C6, counterexample: `input` does not apply the claimed
strip-tags/strip-null-bytes/trim sanitization — a body value `"<b>x"`
is returned with its tag intact, while the claimed sanitization (the
spec-modelled `specDefensiveSanitize`) strips it; and the default is
returned for a key that is present with a `null` value, not only for an
absent key. -/
theorem input_defensive_sanitization_counterexample :
    requestInput ⟨[], [], [("k", .str "<b>x")]⟩ "k" .null "body" = .str "<b>x" ∧
    specDefensiveSanitize (.str "<b>x") = .str "x" ∧
    JSVal.str "<b>x" ≠ JSVal.str "x" ∧
    requestInput ⟨[], [], [("k", .null)]⟩ "k" (.str "fallback") "body" = .str "fallback" :=
  ⟨rfl, rfl, by simp, rfl⟩

/-- C6, amended: `input(key, default, source)` reads from exactly the
one mapping named by `source` (`query` or `params`; `body` for
`'body'` and any unrecognised source) — its result depends only on
that mapping — and applies the code's defensive sanitization (double
single quotes, double backslashes, escape null bytes, then trim)
recursively over arrays and objects, returning the default when the
value is absent, `null` or `undefined`. -/
theorem input_source_and_escaping (s1 s2 : Sources) (key : String)
    (d : JSVal) (source : String) :
    (sourceSelect s1 source = sourceSelect s2 source →
       requestInput s1 key d source = requestInput s2 key d source) ∧
    (source = "query" → sourceSelect s1 source = s1.query) ∧
    (source = "params" → sourceSelect s1 source = s1.params) ∧
    (source = "body" → sourceSelect s1 source = s1.body) ∧
    (getProp (sourceSelect s1 source) key = none → requestInput s1 key d source = d) ∧
    (getProp (sourceSelect s1 source) key = some .null → requestInput s1 key d source = d) ∧
    (getProp (sourceSelect s1 source) key = some .undef → requestInput s1 key d source = d) ∧
    (∀ v, getProp (sourceSelect s1 source) key = some v → v ≠ .null → v ≠ .undef →
       requestInput s1 key d source = requestSanitize v) ∧
    (∀ xs, requestSanitize (.arr xs) = .arr (xs.map requestSanitize)) ∧
    (∀ fs, requestSanitize (.obj fs)
        = .obj (fs.map fun kv => (kv.1, requestSanitize kv.2))) := by
  have hlist : ∀ xs : List JSVal, requestSanitizeList xs = xs.map requestSanitize := by
    intro xs
    induction xs with
    | nil => rfl
    | cons v rest ih => simp [requestSanitizeList, ih]
  have hfields : ∀ fs : List (String × JSVal),
      requestSanitizeFields fs = fs.map fun kv => (kv.1, requestSanitize kv.2) := by
    intro fs
    induction fs with
    | nil => rfl
    | cons kv rest ih => simp [requestSanitizeFields, ih]
  refine ⟨?_, ?_, ?_, ?_, ?_, ?_, ?_, ?_, ?_, ?_⟩
  · intro h
    simp [requestInput, h]
  · intro h; simp [sourceSelect, h]
  · intro h; simp [sourceSelect, h]
  · intro h; simp [sourceSelect, h]
  · intro h; simp [requestInput, h]
  · intro h; simp [requestInput, h]
  · intro h; simp [requestInput, h]
  · intro v h hnull hundef
    cases v with
    | null => exact absurd rfl hnull
    | undef => exact absurd rfl hundef
    | bool b => simp [requestInput, h, requestSanitize]
    | num n => simp [requestInput, h, requestSanitize]
    | str s => simp [requestInput, h, requestSanitize]
    | arr xs => simp [requestInput, h, requestSanitize]
    | obj fs => simp [requestInput, h, requestSanitize]
  · intro xs; simp [requestSanitize, hlist]
  · intro fs; simp [requestSanitize, hfields]

theorem input_source_and_escaping_witness :
    getProp (sourceSelect ⟨[], [], []⟩ "body") "k" = none ∧
    requestInput ⟨[], [], []⟩ "k" (.str "fallback") "body" = .str "fallback" :=
  ⟨rfl,
   (input_source_and_escaping ⟨[], [], []⟩ ⟨[], [], []⟩ "k"
      (.str "fallback") "body").2.2.2.2.1 rfl⟩

theorem getSanitizedInput_absent_key_empty_string_witness :
    hasProp (Sources.query ⟨[], [], []⟩) "k" = false ∧
    getValue ⟨[], [], []⟩ "k" (.str "fallback") = .undef ∧
    getSanitizedInputString ⟨[], [], []⟩ "k" (.str "fallback") {} = .str "" := by
  have h := getSanitizedInput_absent_key_empty_string ⟨[], [], []⟩ "k"
    (.str "fallback") {} (by decide) (by decide) (by decide)
  exact ⟨by decide, h.1, h.2⟩

end NodeServer
